import Mathlib

/-!
# Verification of the OPSWAT knowledge-assistant turn pipeline

A shallow embedding of the turn-processing pipeline of
`services_updated.py`: product-scope detection, intent classification,
message wrapping, the guardrail checks, the bounded rewrite loop, the
thread-mapping store and the answer-extraction helper.  Python strings
are Lean `String`s (whose logical model is a list of characters), Python
`Optional[str]` is `Option String`, Python sets of product names are
lists of canonical names in registry order, and the backend (OpenAI
runs) is an oracle supplying each run's terminal status and fetched
answer text.
-/

namespace AIAssist

/-- Python truthiness of an `Optional[str]`: `None` and `""` are falsy. -/
def optTruthy : Option String → Bool
  | none => false
  | some s => s != ""

/-- Membership of `k` as a contiguous substring of `t`, checked at every
suffix; the model of Python's `k in t` for strings. -/
def strInAux (k : List Char) : List Char → Bool
  | [] => k.isPrefixOf []
  | c :: rest => k.isPrefixOf (c :: rest) || strInAux k rest

/-- Python `k in t` (substring containment). -/
def strIn (k t : String) : Bool := strInAux k.data t.data

/-- The characters Python's `str.strip()` removes (ASCII whitespace). -/
def isPySpace (c : Char) : Bool :=
  c == ' ' || c == '\t' || c == '\n' || c == '\r' || c == '\x0b' || c == '\x0c'

/-- Strip leading and trailing whitespace from a character list. -/
def pyStripChars (l : List Char) : List Char :=
  ((l.dropWhile isPySpace).reverse.dropWhile isPySpace).reverse

/-- Python `str.strip()`. -/
def pyStrip (s : String) : String := ⟨pyStripChars s.data⟩

/-- ASCII lower-casing of one character (Python `str.lower()` per char). -/
def lowerChar (c : Char) : Char :=
  if 'A' ≤ c && c ≤ 'Z' then Char.ofNat (c.toNat + 32) else c

/-- `_normalize` in the source: `(text or "").strip().lower()`. -/
def normalize (text : String) : String := ⟨(pyStripChars text.data).map lowerChar⟩

/-- Python `sep.join(parts)`. -/
def pyJoin (sep : String) : List String → String
  | [] => ""
  | [p] => p
  | p :: q :: rest => p ++ sep ++ pyJoin sep (q :: rest)

/-- `t.endswith(s)` for strings: suffix containment on the character data. -/
def strEndsWith (t s : String) : Bool := s.data.isSuffixOf t.data

/-- Lexicographic (code-point) order on strings, as Python compares them. -/
def listCharLe : List Char → List Char → Bool
  | [], _ => true
  | _ :: _, [] => false
  | a :: as, b :: bs => if a < b then true else if b < a then false else listCharLe as bs

/-- `x <= y` for strings under code-point lexicographic order. -/
def strLe (x y : String) : Bool := listCharLe x.data y.data

/-- Insert into a sorted list (auxiliary to `pySorted`). -/
def insertSorted (x : String) : List String → List String
  | [] => [x]
  | y :: ys => if strLe x y then x :: y :: ys else y :: insertSorted x ys

/-- Python `sorted(...)` on a collection of strings. -/
def pySorted (l : List String) : List String := l.foldr insertSorted []

/-- `_PRODUCT_KEYWORDS`: the registry of canonical product names with their
keyword synonym sets, in the source's insertion order. -/
def PRODUCT_KEYWORDS : List (String × List String) :=
  [("MetaDefender Core", ["metadefender core", "md core", "core"]),
   ("MetaDefender Kiosk", ["metadefender kiosk", "kiosk"]),
   ("MetaDefender ICAP", ["metadefender icap", "icap"]),
   ("MetaDefender Cloud", ["metadefender cloud", "md cloud", "cloud"]),
   ("OESIS", ["oesis", "endpoint security", "opwat endpoint", "device security"])]

/-- `_CODE_HINTS` keyword set. -/
def CODE_HINTS : List String :=
  ["code", "snippet", "example", "sample", "implement", "implementation", "sdk",
   "curl", "http", "endpoint", "api", "json", "yaml", "values.yaml", "dockerfile",
   "python", "c#", "csharp", "java", "javascript", "node", "dotnet", "powershell"]

/-- `_PRIVATE_HINTS` keyword set. -/
def PRIVATE_HINTS : List String :=
  ["bypass", "exploit", "crack", "pirate", "steal", "leak", "private key", "api key",
   "password", "credential", "disable security", "evade", "backdoor"]

/-- `_CONTEXT_HINTS` keyword set. -/
def CONTEXT_HINTS : List String :=
  ["based on our chat", "as we discussed", "earlier you said", "in this conversation",
   "previous message", "last time"]

/-- `_EXACT_FACT_HINTS` keyword set. -/
def EXACT_FACT_HINTS : List String :=
  ["exact", "full path", "path", "endpoint", "url", "health", "status api", "port",
   "flag", "parameter name", "config file location", "values.yaml"]

/-- `_REQUIRED_HEADINGS` in the source: the headings the structure
guardrail actually checks for. -/
def REQUIRED_HEADINGS : List String := ["## Answer", "## Steps / Example", "## Sources"]

/-- `detect_products`: canonical names (in registry order) of every product
one of whose keywords occurs in the normalized text. -/
def detect_products (text : String) : List String :=
  let t := normalize text
  (PRODUCT_KEYWORDS.filter (fun pk => pk.2.any (fun k => strIn k t))).map Prod.fst

/-- `categorize_intent`: ordered first-match rules over the normalized
message (the `product_hint` parameter is accepted and ignored, as in the
source). -/
def categorize_intent (user_message : String) (product_hint : Option String)
    (language_hint : Option String) : String :=
  let t := normalize user_message
  let _ := product_hint
  if PRIVATE_HINTS.any (fun h => strIn h t) then "PRIVATE"
  else if CONTEXT_HINTS.any (fun h => strIn h t) then "CONTEXT"
  else if optTruthy language_hint && optTruthy (language_hint.map pyStrip) then "CODE"
  else if CODE_HINTS.any (fun h => strIn h t) then "CODE"
  else "KNOWLEDGE"

/-- `needs_exact_fact`. -/
def needs_exact_fact (user_message : String) : Bool :=
  EXACT_FACT_HINTS.any (fun h => strIn h (normalize user_message))

/-- Python `set.add` on the list model of a set: append when absent. -/
def pyInsertName (l : List String) (x : String) : List String :=
  if l.contains x then l else l ++ [x]

/-- The scope set of `build_wrapped_user_message`: products detected in the
question, plus the stripped product hint when that hint is truthy. -/
def scope_set (user_message : String) (product_hint : Option String) : List String :=
  let q := detect_products user_message
  match product_hint with
  | some p => if p != "" then pyInsertName q (pyStrip p) else q
  | none => q

/-- The wrapper's scope line: present exactly when the scope set is
non-empty, listing its members sorted. -/
def scope_line (user_message : String) (product_hint : Option String) : String :=
  let q := scope_set user_message product_hint
  if q != [] then
    "Scope: " ++ pyJoin ", " (pySorted q) ++ ". Do not mention other OPSWAT products."
  else ""

/-- The wrapper's exact-fact line, present when the question needs an exact
fact. -/
def exact_line (user_message : String) : String :=
  if needs_exact_fact user_message then
    "This question requires exact values (endpoints/paths/flags/ports). Do NOT invent. If not present in the KB context, reply with: \"Not found in the provided knowledge base.\""
  else ""

/-- The advisory hints collected into the code block, each kept only when
truthy, in the source's order. -/
def hint_items (product_hint language_hint task_hint : Option String) : List String :=
  (if optTruthy product_hint then ["Product: " ++ product_hint.getD ""] else []) ++
  (if optTruthy language_hint then ["Language: " ++ language_hint.getD ""] else []) ++
  (if optTruthy task_hint then ["Task: " ++ task_hint.getD ""] else [])

/-- The `hint_block` local of the wrapper: the bulleted hints, or the fixed
placeholder when there are none. -/
def hint_block (product_hint language_hint task_hint : Option String) : String :=
  let hints := hint_items product_hint language_hint task_hint
  if hints != [] then pyJoin "\n" (hints.map (fun h => "- " ++ h))
  else "- (no extra hints provided)"

/-- The wrapper's code-assistance block, present exactly when the intent is
`CODE`. -/
def code_line (user_message : String)
    (product_hint language_hint task_hint : Option String) : String :=
  if categorize_intent user_message product_hint language_hint == "CODE" then
    "This is a CODE request.\nProvide a minimal working template immediately (with placeholders), then ask at most 2 clarifying questions.\nKnown hints:\n"
      ++ hint_block product_hint language_hint task_hint
  else ""

/-- The mandatory output-structure directive (`format_line` in the source). -/
def FORMAT_LINE : String :=
  "Output format (strict):\n## Answer\n## Steps / Example\n## Notes (optional)\n## Sources\n"

/-- The fixed opening line of every wrapped message. -/
def INTRO_LINE : String := "You are responding to an end-user question."

/-- The final section of the wrapped message: a label plus the stripped
question text. -/
def question_section (user_message : String) : String :=
  "User question:\n" ++ pyStrip user_message

/-- `build_wrapped_user_message`: the truthy sections in the source's fixed
order, joined by a blank line. -/
def build_wrapped_user_message (user_message : String)
    (product_hint language_hint task_hint : Option String) : String :=
  pyJoin "\n\n"
    (([INTRO_LINE,
       scope_line user_message product_hint,
       exact_line user_message,
       code_line user_message product_hint language_hint task_hint,
       FORMAT_LINE,
       question_section user_message]).filter (fun p => p != ""))

/-- `_has_required_markdown_structure`: false on the empty (falsy) string,
otherwise every required heading occurs verbatim in the text. -/
def has_required_markdown_structure (text : String) : Bool :=
  if text == "" then false
  else REQUIRED_HEADINGS.all (fun h => strIn h text)

/-- `_enforce_product_scope`: pass when the question names no product,
otherwise the answer's products must all be among the question's. -/
def enforce_product_scope (question answer : String) : Bool :=
  let q_prod := detect_products question
  let a_prod := detect_products answer
  if q_prod == [] then true
  else a_prod.all (fun p => q_prod.contains p)

/-- `sorted(a_prod - q_prod)`: the extra products of the answer, as the
rewrite loop diagnoses them. -/
def scope_extras (question answer : String) : List String :=
  pySorted ((detect_products answer).filter
    (fun p => !(detect_products question).contains p))

/-- The in-memory map of `ThreadManager`: user id to conversation id. -/
structure ThreadManager where
  threads : List (String × String)
deriving Repr, DecidableEq

/-- Python `del d[k]` on the mapping's list model. -/
def tmRemove (threads : List (String × String)) (user_id : String) :
    List (String × String) :=
  threads.filter (fun p => p.1 != user_id)

/-- `ThreadManager.delete_thread`: returns the new state and the boolean the
method returns.  Mirrors the source: unknown user returns false; a truthy
`thread_id` differing from the stored one returns false and leaves the map
unchanged; otherwise the mapping is removed and true returned. -/
def delete_thread (tm : ThreadManager) (user_id : String)
    (thread_id : Option String) : ThreadManager × Bool :=
  match List.lookup user_id tm.threads with
  | none => (tm, false)
  | some stored =>
    if optTruthy thread_id && (stored != thread_id.getD "") then (tm, false)
    else (⟨tmRemove tm.threads user_id⟩, true)

/-- Configuration of the guardrail/rewrite stage: the two toggles and
`MAX_REWRITE_ATTEMPTS`. -/
structure GuardrailConfig where
  enable_format : Bool
  enable_scope : Bool
  max_attempts : Nat

/-- The `needs_rewrite` flag computed at the top of each loop iteration:
set when an enabled check fails. -/
def needs_rewrite (cfg : GuardrailConfig) (question answer : String) : Bool :=
  (cfg.enable_format && !has_required_markdown_structure answer) ||
  (cfg.enable_scope && !enforce_product_scope question answer)

/-- The corrective instruction the rewrite loop submits: headings and
no-guessing constraints, the allowed product list when non-empty, and the
extra products to remove when any. -/
def rewrite_prompt (question answer : String) : String :=
  let q_prod := detect_products question
  let extras := scope_extras question answer
  let base :=
    "Rewrite your previous answer with these constraints:\n- Use the strict Markdown structure (## Answer, ## Steps / Example, ## Notes (optional), ## Sources).\n- Do NOT guess. If an exact endpoint/path/flag/value is not in the KB context, say: \"Not found in the provided knowledge base.\"\n"
  let base :=
    if q_prod != [] then
      base ++ "- ONLY discuss: " ++ pyJoin ", " (pySorted q_prod) ++ ".\n"
    else base
  if extras != [] then
    base ++ "- Remove references to: " ++ pyJoin ", " extras ++ ".\n"
  else base

/-- The guardrail/rewrite `while` loop of `get_assistant_response`.
`runs n` is the backend's oracle for the n-th rewrite submission: the run's
terminal status and, when completed, the answer text then fetched.  `fuel`
is `MAX_REWRITE_ATTEMPTS - rewrite_attempts` (so the loop is entered while
`rewrite_attempts < MAX_REWRITE_ATTEMPTS`); `submitted` counts rewrite
submissions made so far.  Returns the final answer and the total number of
rewrite submissions.  When a check fails the loop submits a rewrite
(incrementing the count), stops keeping the prior answer if the re-run did
not complete, and otherwise continues with the newly fetched answer. -/
def rewrite_loop (cfg : GuardrailConfig) (question : String)
    (runs : Nat → String × String) : Nat → String → Nat → String × Nat
  | 0, answer, submitted => (answer, submitted)
  | fuel + 1, answer, submitted =>
    if needs_rewrite cfg question answer then
      let res := runs submitted
      if res.1 != "completed" then (answer, submitted + 1)
      else rewrite_loop cfg question runs fuel res.2 (submitted + 1)
    else (answer, submitted)

/-- `get_assistant_response` after the wrapped message is posted: the
initial run's (status, payload) pair — payload being the fetched answer on
completion and the error detail otherwise — followed by the guardrail
rewrite loop.  A non-completed initial run raises (models the `raise
Exception`); the loop itself never produces an error. -/
def get_assistant_response (cfg : GuardrailConfig) (question : String)
    (initial_run : String × String) (runs : Nat → String × String) :
    Except String String :=
  if initial_run.1 != "completed" then
    Except.error ("Assistant run failed: " ++ initial_run.2)
  else
    Except.ok (rewrite_loop cfg question runs cfg.max_attempts initial_run.2 0).1

/-- One content block of a thread message: `some t` when the block has a
`text` attribute with value `t`. -/
structure ContentBlock where
  text : Option String
deriving Repr, DecidableEq

/-- A message of the conversation as listed by the backend. -/
structure ThreadMessage where
  role : String
  content : List ContentBlock
deriving Repr, DecidableEq

/-- `_get_latest_assistant_text` over the messages in descending order:
the first assistant message whose (non-empty) content starts with a text
block yields that text; otherwise the fixed error sentinel. -/
def get_latest_assistant_text : List ThreadMessage → String
  | [] => "Error: Assistant completed run but returned no text."
  | m :: rest =>
    if m.role == "assistant" then
      match m.content with
      | b :: _ =>
        match b.text with
        | some t => t
        | none => get_latest_assistant_text rest
      | [] => get_latest_assistant_text rest
    else get_latest_assistant_text rest

/-- Shared backend/store state for the `get_or_create_thread` race model:
the mapping table and how many backend conversations have been created. -/
structure BackendState where
  threads : List (String × String)
  created : Nat
deriving Repr, DecidableEq

/-- The id the backend hands out for its n-th `threads.create()` call. -/
def freshThreadId (n : Nat) : String := "thread_" ++ toString n

/-- Python `self.threads[user_id] = tid` (dict assignment). -/
def tmStore (threads : List (String × String)) (u tid : String) :
    List (String × String) :=
  if (List.lookup u threads).isSome then
    threads.map (fun p => if p.1 == u then (u, tid) else p)
  else threads ++ [(u, tid)]

/-- Program counter of one caller running `get_or_create_thread`: the
membership check, the blocking backend `create` call, the store of the
mapping, and completion with the returned id.  The split points are the
statements of the method between which another caller can be scheduled
(the `create` call blocks on the network). -/
inductive CallerPC where
  | start
  | needCreate
  | toStore (tid : String)
  | done (ret : String)
deriving Repr, DecidableEq

/-- One atomic step of a caller executing `get_or_create_thread u`. -/
def callerStep (u : String) (s : BackendState) (pc : CallerPC) :
    BackendState × CallerPC :=
  match pc with
  | .start =>
    match List.lookup u s.threads with
    | some t => (s, .done t)
    | none => (s, .needCreate)
  | .needCreate =>
    ({ s with created := s.created + 1 }, .toStore (freshThreadId s.created))
  | .toStore tid =>
    ({ s with threads := tmStore s.threads u tid }, .done tid)
  | .done r => (s, .done r)

/-- Run two interleaved callers of `get_or_create_thread` under a schedule
(`true` steps the first caller, `false` the second). -/
def runSchedule (u1 u2 : String) :
    List Bool → BackendState → CallerPC → CallerPC →
      BackendState × CallerPC × CallerPC
  | [], s, p1, p2 => (s, p1, p2)
  | true :: rest, s, p1, p2 =>
    let r := callerStep u1 s p1
    runSchedule u1 u2 rest r.1 r.2 p2
  | false :: rest, s, p1, p2 =>
    let r := callerStep u2 s p2
    runSchedule u1 u2 rest r.1 p1 r.2

end AIAssist

namespace AIAssist

/-- Strings with the same character data are equal. -/
theorem str_ext {s t : String} (h : s.data = t.data) : s = t := by
  cases s; cases t; exact congrArg String.mk h

/-- An append whose left part is non-empty is non-empty. -/
theorem append_ne_empty_left (s t : String) (h : s ≠ "") : s ++ t ≠ "" := by
  intro he
  have hd : (s ++ t).data = [] := by rw [he]
  rw [String.data_append] at hd
  have hs : s.data = [] := by
    cases hld : s.data with
    | nil => rfl
    | cons a l => rw [hld] at hd; simp at hd
  exact h (str_ext hs)

/-- `strInAux` decides infix containment of character lists. -/
theorem strInAux_infix_iff (k l : List Char) : strInAux k l = true ↔ k <:+: l := by
  induction l with
  | nil =>
    simp [strInAux, List.isPrefixOf_iff_prefix]
  | cons c rest ih =>
    simp [strInAux, List.isPrefixOf_iff_prefix, ih, List.infix_cons_iff]

/-- `strIn` decides substring containment. -/
theorem strIn_infix_iff (k t : String) : strIn k t = true ↔ k.data <:+: t.data := by
  simp [strIn, strInAux_infix_iff]

/-- Membership in an insertion-sort insert. -/
theorem mem_insertSorted {a x : String} {l : List String} :
    a ∈ insertSorted x l ↔ a = x ∨ a ∈ l := by
  induction l with
  | nil => simp [insertSorted]
  | cons y ys ih =>
    by_cases h : strLe x y = true
    · simp [insertSorted, h]
    · simp only [insertSorted, if_neg h, List.mem_cons, ih]
      tauto

/-- `pySorted` is a permutation membership-wise. -/
theorem mem_pySorted {a : String} {l : List String} : a ∈ pySorted l ↔ a ∈ l := by
  induction l with
  | nil => simp [pySorted]
  | cons x xs ih =>
    show a ∈ insertSorted x (pySorted xs) ↔ _
    simp [mem_insertSorted, ih]

/-- `List.contains` on strings decides membership. -/
theorem contains_iff_mem (l : List String) (x : String) :
    l.contains x = true ↔ x ∈ l := by
  simp [List.contains, List.elem_iff]

/-- After `tmRemove`, the removed user has no mapping. -/
theorem lookup_tmRemove (l : List (String × String)) (u : String) :
    List.lookup u (tmRemove l u) = none := by
  induction l with
  | nil => rfl
  | cons p rest ih =>
    obtain ⟨k, v⟩ := p
    by_cases h : k = u
    · simp [tmRemove, List.filter, h] at ih ⊢
      exact ih
    · have hb : (k != u) = true := by simp [h]
      have hb2 : (u == k) = false := by
        simp [beq_eq_false_iff_ne]
        exact fun he => h he.symm
      simp [tmRemove, List.filter, hb, List.lookup, hb2] at ih ⊢
      exact ih

/-- Python join of a list ending in one more element. -/
theorem pyJoin_append_single (sep x : String) (l : List String) (h : l ≠ []) :
    pyJoin sep (l ++ [x]) = pyJoin sep l ++ (sep ++ x) := by
  induction l with
  | nil => exact absurd rfl h
  | cons a as ih =>
    cases as with
    | nil => simp [pyJoin, String.append_assoc]
    | cons b bs =>
      have hj : pyJoin sep ((b :: bs) ++ [x]) = pyJoin sep (b :: bs) ++ (sep ++ x) :=
        ih (by simp)
      show a ++ sep ++ pyJoin sep ((b :: bs) ++ [x]) =
        a ++ sep ++ pyJoin sep (b :: bs) ++ (sep ++ x)
      rw [hj]
      simp [String.append_assoc]

/-- Every element of the joined list occurs as a substring of the join. -/
theorem infix_pyJoin {x : String} {l : List String} (hx : x ∈ l) (sep : String) :
    x.data <:+: (pyJoin sep l).data := by
  induction l with
  | nil => cases hx
  | cons a as ih =>
    cases as with
    | nil =>
      rcases List.mem_singleton.mp hx with rfl
      exact List.infix_refl _
    | cons b bs =>
      rcases List.mem_cons.mp hx with rfl | hmem
      · exact ⟨[], (sep ++ pyJoin sep (b :: bs)).data, by
          simp [pyJoin, String.data_append]⟩
      · obtain ⟨s, t, hst⟩ := ih hmem
        exact ⟨(a ++ sep).data ++ s, t, by
          simp [pyJoin, String.data_append, ← hst]⟩

/-- The rewrite loop makes at most `submitted + fuel` total submissions. -/
theorem rewrite_loop_submitted_le (cfg : GuardrailConfig) (q : String)
    (runs : Nat → String × String) (fuel : Nat) :
    ∀ (a : String) (s : Nat), (rewrite_loop cfg q runs fuel a s).2 ≤ s + fuel := by
  induction fuel with
  | zero => intro a s; simp [rewrite_loop]
  | succ n ih =>
    intro a s
    rw [rewrite_loop]
    by_cases hn : needs_rewrite cfg q a = true
    · rw [if_pos hn]
      by_cases hc : ((runs s).1 != "completed") = true
      · rw [if_pos hc]; omega
      · rw [if_neg hc]
        have := ih (runs s).2 (s + 1)
        omega
    · rw [if_neg hn]; omega

end AIAssist

namespace AIAssist

/-- C1 counterexample: an answer containing the headings `## Answer`,
`## Steps / Example` and `## Sources` but NOT `## Notes (optional)` still
passes the structure check, so the check does not require all four
mandated headings. -/
theorem c1_counterexample_notes_not_required :
    has_required_markdown_structure
      "## Answer\nYes.\n\n## Steps / Example\n1. Go.\n\n## Sources\n- KB doc" = true ∧
    strIn "## Notes (optional)"
      "## Answer\nYes.\n\n## Steps / Example\n1. Go.\n\n## Sources\n- KB doc" = false :=
  ⟨rfl, rfl⟩

/-- C1 (amended): the structure guardrail check passes if and only if the
three headings `## Answer`, `## Steps / Example` and `## Sources` appear
verbatim in the answer text, in any order; the `## Notes (optional)`
heading is not checked. -/
theorem c1_structure_check_iff (text : String) :
    has_required_markdown_structure text = true ↔
      (strIn "## Answer" text = true ∧ strIn "## Steps / Example" text = true ∧
       strIn "## Sources" text = true) := by
  unfold has_required_markdown_structure
  by_cases h : text = ""
  · subst h
    constructor
    · intro hfalse; simp at hfalse
    · rintro ⟨h1, _, _⟩
      exact absurd h1 (by decide)
  · have hb : (text == "") = false := beq_eq_false_iff_ne.mpr h
    simp [hb, REQUIRED_HEADINGS]

/-- C2: the product-scope check passes iff the question's detected product
set Q is empty or the answer's detected product set A is a subset of Q, and
the diagnosed extra set is exactly A minus Q; concretely, a
MetaDefender-Kiosk question with an answer also naming MetaDefender Core
fails with extra set exactly {MetaDefender Core}. -/
theorem c2_scope_check_iff (question answer : String) :
    (enforce_product_scope question answer = true ↔
      (detect_products question = [] ∨
        ∀ p ∈ detect_products answer, p ∈ detect_products question)) ∧
    (∀ p, p ∈ scope_extras question answer ↔
      (p ∈ detect_products answer ∧ p ∉ detect_products question)) ∧
    enforce_product_scope "How do I install MetaDefender Kiosk?"
      "MetaDefender Kiosk forwards files to MetaDefender Core." = false ∧
    scope_extras "How do I install MetaDefender Kiosk?"
      "MetaDefender Kiosk forwards files to MetaDefender Core." = ["MetaDefender Core"] := by
  refine ⟨?_, ?_, rfl, rfl⟩
  · unfold enforce_product_scope
    by_cases hq : detect_products question = []
    · simp [hq]
    · have hb : (detect_products question == []) = false := beq_eq_false_iff_ne.mpr hq
      simp [hb, hq, List.all_eq_true, contains_iff_mem]
  · intro p
    unfold scope_extras
    rw [mem_pySorted, List.mem_filter]
    constructor
    · rintro ⟨hmem, hnc⟩
      refine ⟨hmem, fun hin => ?_⟩
      rw [Bool.not_eq_true', ← Bool.not_eq_true] at hnc
      exact hnc ((contains_iff_mem _ _).mpr hin)
    · rintro ⟨hmem, hnin⟩
      refine ⟨hmem, ?_⟩
      have hc : (detect_products question).contains p = false := by
        rw [← Bool.not_eq_true]
        exact fun hc => hnin ((contains_iff_mem _ _).mp hc)
      simp [hc]
      exact hnin

end AIAssist

namespace AIAssist

/-- C3: intent classification is ordered first-match: any message with a
private/security-bypass phrase is `PRIVATE` regardless of hints; absent
private and context phrases, a language hint with non-empty strip forces
`CODE` (no code keyword needed); and a message triggering no rule with no
active language hint is `KNOWLEDGE`. -/
theorem c3_intent_first_match_priority :
    (∀ (msg : String) (ph lh : Option String),
        PRIVATE_HINTS.any (fun h => strIn h (normalize msg)) = true →
        categorize_intent msg ph lh = "PRIVATE") ∧
    (∀ (msg : String) (ph : Option String) (s : String),
        PRIVATE_HINTS.any (fun h => strIn h (normalize msg)) = false →
        CONTEXT_HINTS.any (fun h => strIn h (normalize msg)) = false →
        pyStrip s ≠ "" →
        categorize_intent msg ph (some s) = "CODE") ∧
    (∀ (msg : String) (ph lh : Option String),
        PRIVATE_HINTS.any (fun h => strIn h (normalize msg)) = false →
        CONTEXT_HINTS.any (fun h => strIn h (normalize msg)) = false →
        (optTruthy lh && optTruthy (lh.map pyStrip)) = false →
        CODE_HINTS.any (fun h => strIn h (normalize msg)) = false →
        categorize_intent msg ph lh = "KNOWLEDGE") := by
  refine ⟨?_, ?_, ?_⟩
  · intro msg ph lh hpriv
    unfold categorize_intent
    simp only [hpriv, if_true]
  · intro msg ph s hpriv hctx hstrip
    have hs : s ≠ "" := by
      intro he; subst he; exact hstrip rfl
    unfold categorize_intent
    simp only [hpriv, hctx, Bool.false_eq_true, if_false]
    have ht : (optTruthy (some s) && optTruthy ((some s).map pyStrip)) = true := by
      simp [optTruthy, hs, hstrip]
    rw [if_pos ht]
  · intro msg ph lh hpriv hctx hlang hcode
    unfold categorize_intent
    simp only [hpriv, hctx, hlang, hcode, Bool.false_eq_true, if_false]

/-- C3 witness: the priority rules at concrete inputs — a bypass question
is `PRIVATE` even with a language hint; a hint-only message is `CODE`
without code keywords; a plain greeting is `KNOWLEDGE`. -/
theorem c3_intent_witness :
    categorize_intent "how to bypass the license check" none (some "python") = "PRIVATE" ∧
    categorize_intent "hello there" none (some "java") = "CODE" ∧
    categorize_intent "hello there" none none = "KNOWLEDGE" :=
  ⟨c3_intent_first_match_priority.1 "how to bypass the license check" none (some "python") rfl,
   c3_intent_first_match_priority.2.1 "hello there" none "java" rfl rfl (by decide),
   c3_intent_first_match_priority.2.2 "hello there" none none rfl rfl rfl rfl⟩

/-- C4: for one turn the rewrite loop, started as `get_assistant_response`
starts it (full fuel, zero submissions so far), performs at most
`max_attempts` rewrite submissions whatever the guardrail outcomes and
whatever the backend returns; the recursion is structurally bounded, so
the loop always terminates. -/
theorem c4_rewrite_submission_bound (cfg : GuardrailConfig) (question a0 : String)
    (runs : Nat → String × String) :
    (rewrite_loop cfg question runs cfg.max_attempts a0 0).2 ≤ cfg.max_attempts := by
  have := rewrite_loop_submitted_le cfg question runs cfg.max_attempts a0 0
  omega

/-- C5: a guardrail failure is never surfaced as an error — with the
initial run completed, the turn always yields `ok`; and when a rewrite
attempt's run ends non-completed, the loop stops and returns the prior
(still guardrail-failing) answer unchanged. -/
theorem c5_guardrail_failure_not_error (cfg : GuardrailConfig) (question a0 : String)
    (runs : Nat → String × String) :
    (∃ ans, get_assistant_response cfg question ("completed", a0) runs = Except.ok ans) ∧
    (0 < cfg.max_attempts → needs_rewrite cfg question a0 = true →
      (runs 0).1 ≠ "completed" →
      get_assistant_response cfg question ("completed", a0) runs = Except.ok a0) := by
  constructor
  · exact ⟨_, rfl⟩
  · intro hpos hneeds hrun
    unfold get_assistant_response
    simp only [bne_self_eq_false, Bool.false_eq_true, if_false]
    cases hm : cfg.max_attempts with
    | zero => omega
    | succ m =>
      rw [rewrite_loop]
      rw [if_pos hneeds]
      have hb : ((runs 0).1 != "completed") = true := bne_iff_ne.mpr hrun
      rw [if_pos hb]

/-- C5 witness: with one allowed attempt, a format-failing answer and a
failed rewrite run, the turn still returns `ok` with the prior answer. -/
theorem c5_witness :
    (∃ ans, get_assistant_response ⟨true, true, 1⟩ "kiosk?" ("completed", "bad")
      (fun _ => ("failed", "")) = Except.ok ans) ∧
    get_assistant_response ⟨true, true, 1⟩ "kiosk?" ("completed", "bad")
      (fun _ => ("failed", "")) = Except.ok "bad" :=
  ⟨(c5_guardrail_failure_not_error ⟨true, true, 1⟩ "kiosk?" "bad" (fun _ => ("failed", ""))).1,
   (c5_guardrail_failure_not_error ⟨true, true, 1⟩ "kiosk?" "bad" (fun _ => ("failed", ""))).2
     (by decide) rfl (by decide)⟩

end AIAssist

namespace AIAssist

/-- Helper: with no assistant-authored message, extraction yields the
error sentinel. -/
theorem glat_no_assistant (msgs : List ThreadMessage)
    (h : ∀ m ∈ msgs, m.role ≠ "assistant") :
    get_latest_assistant_text msgs =
      "Error: Assistant completed run but returned no text." := by
  induction msgs with
  | nil => rfl
  | cons m rest ih =>
    have hm : (m.role == "assistant") = false :=
      beq_eq_false_iff_ne.mpr (h m (List.mem_cons_self m rest))
    rw [get_latest_assistant_text]
    simp only [hm, Bool.false_eq_true, if_false]
    exact ih (fun x hx => h x (List.mem_cons_of_mem m hx))

/-- C6: when the conversation holds no assistant-authored message the
extraction reports the distinct failure sentinel (not the empty string),
and when the latest (first in descending order) assistant message carries
a text block, exactly that text is returned. -/
theorem c6_latest_assistant_text (msgs : List ThreadMessage) :
    ((∀ m ∈ msgs, m.role ≠ "assistant") →
      get_latest_assistant_text msgs =
        "Error: Assistant completed run but returned no text." ∧
      get_latest_assistant_text msgs ≠ "") ∧
    (∀ (pre rest : List ThreadMessage) (m : ThreadMessage) (t : String)
        (bs : List ContentBlock),
      (∀ x ∈ pre, x.role ≠ "assistant") → m.role = "assistant" →
      m.content = ⟨some t⟩ :: bs → msgs = pre ++ m :: rest →
      get_latest_assistant_text msgs = t) := by
  constructor
  · intro h
    have he := glat_no_assistant msgs h
    exact ⟨he, by rw [he]; decide⟩
  · intro pre rest m t bs hpre hrole hcontent hsplit
    subst hsplit
    induction pre with
    | nil =>
      rw [List.nil_append, get_latest_assistant_text]
      have hm : (m.role == "assistant") = true := beq_iff_eq.mpr hrole
      simp only [hm, if_true, hcontent]
    | cons p ps ih =>
      have hp : (p.role == "assistant") = false :=
        beq_eq_false_iff_ne.mpr (hpre p (List.mem_cons_self p ps))
      rw [List.cons_append, get_latest_assistant_text]
      simp only [hp, Bool.false_eq_true, if_false]
      exact ih (fun x hx => hpre x (List.mem_cons_of_mem p hx))

/-- C6 witness: a user-only conversation yields the sentinel; with a
newest assistant message present its text is returned. -/
theorem c6_witness :
    get_latest_assistant_text [⟨"user", [⟨some "q"⟩]⟩] =
      "Error: Assistant completed run but returned no text." ∧
    get_latest_assistant_text
      [⟨"user", [⟨some "q"⟩]⟩, ⟨"assistant", [⟨some "the answer"⟩]⟩,
       ⟨"assistant", [⟨some "older"⟩]⟩] = "the answer" :=
  ⟨((c6_latest_assistant_text [⟨"user", [⟨some "q"⟩]⟩]).1 (by decide)).1,
   (c6_latest_assistant_text _).2 [⟨"user", [⟨some "q"⟩]⟩]
     [⟨"assistant", [⟨some "older"⟩]⟩] ⟨"assistant", [⟨some "the answer"⟩]⟩
     "the answer" [] (by decide) rfl rfl rfl⟩

/-- C7 counterexample: with user `u1` mapped to `t1`, supplying the
expected id `""` (which differs from the stored `t1`) still deletes the
mapping and returns true, because the source treats the empty string as
falsy — contradicting the claim that a supplied non-matching id is a
no-op returning false. -/
theorem c7_counterexample_empty_expected_id :
    (delete_thread ⟨[("u1", "t1")]⟩ "u1" (some "")).2 = true ∧
    (delete_thread ⟨[("u1", "t1")]⟩ "u1" (some "")).1.threads = [] ∧
    ("" : String) ≠ "t1" :=
  ⟨rfl, rfl, by decide⟩

/-- C7 (amended): `delete_thread` returns true iff a mapping exists for
the user and any supplied NON-EMPTY expected id equals the stored one (an
empty-string id is treated as not supplied); on a false return the state
is unchanged, and on a true return the user's mapping is gone. -/
theorem c7_delete_thread_spec (tm : ThreadManager) (u : String) (tid : Option String) :
    ((delete_thread tm u tid).2 = true ↔
      ∃ s, List.lookup u tm.threads = some s ∧
        (∀ v, tid = some v → v ≠ "" → v = s)) ∧
    ((delete_thread tm u tid).2 = false → delete_thread tm u tid = (tm, false)) ∧
    ((delete_thread tm u tid).2 = true →
      List.lookup u (delete_thread tm u tid).1.threads = none) := by
  rcases hl : List.lookup u tm.threads with _ | stored
  · have hd : delete_thread tm u tid = (tm, false) := by
      unfold delete_thread; rw [hl]
    rw [hd]
    refine ⟨?_, fun _ => rfl, fun hc => Bool.noConfusion hc⟩
    constructor
    · intro hc; exact Bool.noConfusion hc
    · rintro ⟨s, hs, _⟩
      exact Option.noConfusion hs
  · by_cases hcond : (optTruthy tid && (stored != tid.getD "")) = true
    · have hd : delete_thread tm u tid = (tm, false) := by
        unfold delete_thread
        rw [hl]
        show (if optTruthy tid && stored != tid.getD "" then (tm, false)
          else (⟨tmRemove tm.threads u⟩, true)) = (tm, false)
        rw [if_pos hcond]
      rw [hd]
      refine ⟨?_, fun _ => rfl, fun hc => Bool.noConfusion hc⟩
      constructor
      · intro hc; exact Bool.noConfusion hc
      · rintro ⟨s, hs, hall⟩
        injection hs with hs
        subst hs
        rcases tid with _ | v
        · simp [optTruthy] at hcond
        · simp only [optTruthy, Option.getD_some, Bool.and_eq_true, bne_iff_ne] at hcond
          obtain ⟨hv, hsv⟩ := hcond
          have hvne : v ≠ "" := by
            intro he; subst he; simp at hv
          exact (hsv (hall v rfl hvne).symm).elim
    · have hd : delete_thread tm u tid = (⟨tmRemove tm.threads u⟩, true) := by
        unfold delete_thread
        rw [hl]
        show (if optTruthy tid && stored != tid.getD "" then (tm, false)
          else (⟨tmRemove tm.threads u⟩, true)) = (⟨tmRemove tm.threads u⟩, true)
        rw [if_neg hcond]
      rw [hd]
      refine ⟨?_, fun hc => Bool.noConfusion hc, fun _ => lookup_tmRemove tm.threads u⟩
      constructor
      · intro _
        refine ⟨stored, rfl, fun v hv hvne => ?_⟩
        subst hv
        have ht : optTruthy (some v) = true := by simp [optTruthy, hvne]
        rcases eq_or_ne stored v with h | h
        · exact h.symm
        · exfalso
          apply hcond
          show (optTruthy (some v) && (stored != (some v).getD "")) = true
          rw [ht]
          simp only [Option.getD_some]
          rw [bne_iff_ne.mpr h]
          rfl
      · intro _; rfl

/-- C7 witness: a wrong non-empty expected id is a no-op returning false,
and deleting an unknown user returns false. -/
theorem c7_witness :
    delete_thread ⟨[("u2", "t9")]⟩ "u2" (some "bad") = (⟨[("u2", "t9")]⟩, false) ∧
    (delete_thread ⟨[]⟩ "nobody" none).2 = false :=
  ⟨(c7_delete_thread_spec ⟨[("u2", "t9")]⟩ "u2" (some "bad")).2.1 rfl, rfl⟩

/-- C9: the claimed atomicity fails under interleaving — two concurrent
first-turn callers of `get_or_create_thread` for the same unseen user,
each performing its membership check before either stores, create TWO
backend conversations and observe DIFFERENT conversation ids. -/
theorem c9_get_or_create_race :
    (runSchedule "u1" "u1" [true, false, true, false, true, false]
        ⟨[], 0⟩ .start .start).1.created = 2 ∧
    (runSchedule "u1" "u1" [true, false, true, false, true, false]
        ⟨[], 0⟩ .start .start).2.1 = CallerPC.done "thread_0" ∧
    (runSchedule "u1" "u1" [true, false, true, false, true, false]
        ⟨[], 0⟩ .start .start).2.2 = CallerPC.done "thread_1" ∧
    ("thread_0" : String) ≠ "thread_1" :=
  ⟨rfl, rfl, rfl, by decide⟩

/-- Helper: the inserted name is a member of the insertion result. -/
theorem mem_pyInsertName (l : List String) (x : String) : x ∈ pyInsertName l x := by
  unfold pyInsertName
  by_cases h : l.contains x = true
  · rw [if_pos h]; exact (contains_iff_mem l x).mp h
  · rw [if_neg h]; exact List.mem_append_right l (List.mem_singleton.mpr rfl)

/-- C10: the scope guardrail computes the allowed set from the question
text alone — a known product named by the caller's hint but not by the
question fails the check when the answer names it, lands in the diagnosed
extra set, and yet was listed as allowed in the wrapped message's scope
set. -/
theorem c10_scope_check_ignores_hint (question answer p : String)
    (hq : detect_products question ≠ [])
    (hqp : p ∉ detect_products question)
    (hap : p ∈ detect_products answer)
    (hps : pyStrip p = p) (hpne : p ≠ "") :
    enforce_product_scope question answer = false ∧
    p ∈ scope_extras question answer ∧
    p ∈ scope_set question (some p) ∧
    scope_line question (some p) ≠ "" := by
  have hcontains : (detect_products question).contains p = false := by
    rw [← Bool.not_eq_true]
    exact fun hc => hqp ((contains_iff_mem _ _).mp hc)
  have hred : scope_set question (some p) =
      if p != "" then pyInsertName (detect_products question) (pyStrip p)
      else detect_products question := rfl
  have hsetmem : p ∈ scope_set question (some p) := by
    rw [hred, if_pos (bne_iff_ne.mpr hpne), hps]
    exact mem_pyInsertName _ p
  refine ⟨?_, ?_, hsetmem, ?_⟩
  · have he : enforce_product_scope question answer =
        if detect_products question == [] then true
        else (detect_products answer).all
          (fun x => (detect_products question).contains x) := rfl
    have hb : (detect_products question == []) = false := beq_eq_false_iff_ne.mpr hq
    rw [he, if_neg (by simp [hb])]
    rcases hx : (detect_products answer).all
        (fun x => (detect_products question).contains x)
    · rfl
    · have hpq := List.all_eq_true.mp hx p hap
      rw [hcontains] at hpq
      exact absurd hpq (by decide)
  · unfold scope_extras
    rw [mem_pySorted, List.mem_filter]
    refine ⟨hap, ?_⟩
    show (!(detect_products question).contains p) = true
    rw [hcontains]
    rfl
  · have hline : scope_line question (some p) =
        if scope_set question (some p) != [] then
          "Scope: " ++ pyJoin ", " (pySorted (scope_set question (some p))) ++
            ". Do not mention other OPSWAT products."
        else "" := rfl
    have hne : scope_set question (some p) ≠ [] := List.ne_nil_of_mem hsetmem
    rw [hline, if_pos (bne_iff_ne.mpr hne)]
    exact append_ne_empty_left
      ("Scope: " ++ pyJoin ", " (pySorted (scope_set question (some p)))) _
      (append_ne_empty_left "Scope: " _ (by decide))

/-- C10 witness: a Kiosk question with hint `MetaDefender Core` — an
answer naming Core fails the scope check with Core in the extra set, even
though Core was in the wrapped message's allowed scope set. -/
theorem c10_witness :
    enforce_product_scope "How do I install MetaDefender Kiosk?"
      "Configure MetaDefender Core to scan." = false ∧
    "MetaDefender Core" ∈ scope_extras "How do I install MetaDefender Kiosk?"
      "Configure MetaDefender Core to scan." ∧
    "MetaDefender Core" ∈ scope_set "How do I install MetaDefender Kiosk?"
      (some "MetaDefender Core") ∧
    scope_line "How do I install MetaDefender Kiosk?" (some "MetaDefender Core") ≠ "" :=
  c10_scope_check_ignores_hint "How do I install MetaDefender Kiosk?"
    "Configure MetaDefender Core to scan." "MetaDefender Core"
    (by decide) (by decide) (by decide) rfl (by decide)

end AIAssist

namespace AIAssist

/-- Helper: a string ends with any suffix appended to it. -/
theorem strEndsWith_append (pre s : String) : strEndsWith (pre ++ s) s = true := by
  unfold strEndsWith
  exact List.isSuffixOf_iff_suffix.mpr
    (by rw [String.data_append]; exact List.suffix_append pre.data s.data)

/-- C8 counterexample: the original question text is NOT placed unmodified
at the end of the wrapped message — for the question `"hi "` no prefix
completes the wrapped message to end in the original text, because the
wrapper strips the question (the message ends in the stripped text under
the `User question:` label). -/
theorem c8_counterexample_question_stripped :
    (∀ pre : String, build_wrapped_user_message "hi " none none none ≠ pre ++ "hi ") ∧
    strEndsWith (build_wrapped_user_message "hi " none none none)
      ("User question:\n" ++ pyStrip "hi ") = true := by
  constructor
  · intro pre h
    have h1 : strEndsWith (build_wrapped_user_message "hi " none none none) "hi " = true := by
      rw [h]; exact strEndsWith_append pre "hi "
    have h2 : strEndsWith (build_wrapped_user_message "hi " none none none) "hi " = false := by
      rfl
    rw [h1] at h2
    exact Bool.noConfusion h2
  · rfl

/-- C8 (amended): the wrapper assembles the sections in the source's fixed
order joined by blank lines, each optional section present exactly when its
trigger holds — the scope line iff the detected-plus-hinted set is
non-empty, the exact-fact line iff a precision keyword matches, the code
block iff the intent is CODE, the structure directive always — and the
question text, stripped of surrounding whitespace and prefixed with the
`User question:` label, is always last. -/
theorem c8_wrapper_assembly (msg : String) (ph lh th : Option String) :
    strEndsWith (build_wrapped_user_message msg ph lh th)
      ("User question:\n" ++ pyStrip msg) = true ∧
    (scope_line msg ph = "" ↔ scope_set msg ph = []) ∧
    (exact_line msg = "" ↔ needs_exact_fact msg = false) ∧
    (code_line msg ph lh th = "" ↔ ¬ categorize_intent msg ph lh = "CODE") ∧
    strIn FORMAT_LINE (build_wrapped_user_message msg ph lh th) = true ∧
    build_wrapped_user_message msg ph lh th =
      pyJoin "\n\n" (([INTRO_LINE, scope_line msg ph, exact_line msg,
        code_line msg ph lh th, FORMAT_LINE,
        question_section msg]).filter (fun p => p != "")) := by
  have hpredq : (question_section msg != "") = true :=
    bne_iff_ne.mpr (append_ne_empty_left "User question:\n" (pyStrip msg) (by decide))
  have hsplit : ([INTRO_LINE, scope_line msg ph, exact_line msg,
      code_line msg ph lh th, FORMAT_LINE, question_section msg]).filter
        (fun p => p != "") =
      (([INTRO_LINE, scope_line msg ph, exact_line msg, code_line msg ph lh th,
        FORMAT_LINE]).filter (fun p => p != "")) ++ [question_section msg] := by
    have hdecomp : [INTRO_LINE, scope_line msg ph, exact_line msg,
        code_line msg ph lh th, FORMAT_LINE, question_section msg] =
        [INTRO_LINE, scope_line msg ph, exact_line msg, code_line msg ph lh th,
          FORMAT_LINE] ++ [question_section msg] := rfl
    rw [hdecomp, List.filter_append]
    have hfq : List.filter (fun p => p != "") [question_section msg] =
        [question_section msg] := by
      simp [hpredq]
    rw [hfq]
  have hfront : (([INTRO_LINE, scope_line msg ph, exact_line msg,
      code_line msg ph lh th, FORMAT_LINE]).filter (fun p => p != "")) =
      INTRO_LINE :: (([scope_line msg ph, exact_line msg, code_line msg ph lh th,
        FORMAT_LINE]).filter (fun p => p != "")) := by
    show List.filter _ (INTRO_LINE :: _) = _
    rw [List.filter_cons_of_pos (by rfl)]
  have hfront_ne : (([INTRO_LINE, scope_line msg ph, exact_line msg,
      code_line msg ph lh th, FORMAT_LINE]).filter (fun p => p != "")) ≠ [] := by
    rw [hfront]; exact List.cons_ne_nil _ _
  have hbuild : build_wrapped_user_message msg ph lh th =
      pyJoin "\n\n" ((([INTRO_LINE, scope_line msg ph, exact_line msg,
        code_line msg ph lh th, FORMAT_LINE]).filter (fun p => p != "")) ++
        [question_section msg]) := by
    show pyJoin "\n\n" _ = _
    rw [← hsplit]
  refine ⟨?_, ?_, ?_, ?_, ?_, rfl⟩
  · rw [hbuild, pyJoin_append_single _ _ _ hfront_ne, ← String.append_assoc]
    exact strEndsWith_append _ ("User question:\n" ++ pyStrip msg)
  · have hline : scope_line msg ph =
        if scope_set msg ph != [] then
          "Scope: " ++ pyJoin ", " (pySorted (scope_set msg ph)) ++
            ". Do not mention other OPSWAT products."
        else "" := rfl
    by_cases hs : scope_set msg ph = []
    · rw [hline, if_neg (by simp [hs])]
      simp [hs]
    · rw [hline, if_pos (bne_iff_ne.mpr hs)]
      constructor
      · intro he
        exact absurd he (append_ne_empty_left _ _
          (append_ne_empty_left "Scope: " _ (by decide)))
      · intro he; exact absurd he hs
  · have hexact : exact_line msg =
        if needs_exact_fact msg then
          "This question requires exact values (endpoints/paths/flags/ports). Do NOT invent. If not present in the KB context, reply with: \"Not found in the provided knowledge base.\""
        else "" := rfl
    by_cases hne : needs_exact_fact msg = true
    · rw [hexact, if_pos hne]
      constructor
      · intro he; exact absurd he (by decide)
      · intro hf; rw [hne] at hf; exact Bool.noConfusion hf
    · have hff : needs_exact_fact msg = false := by
        rcases hc : needs_exact_fact msg
        · rfl
        · exact absurd hc hne
      rw [hexact, if_neg (by rw [hff]; exact Bool.false_ne_true)]
      simp [hff]
  · have hcode : code_line msg ph lh th =
        if categorize_intent msg ph lh == "CODE" then
          "This is a CODE request.\nProvide a minimal working template immediately (with placeholders), then ask at most 2 clarifying questions.\nKnown hints:\n"
            ++ hint_block ph lh th
        else "" := rfl
    by_cases hc : categorize_intent msg ph lh = "CODE"
    · rw [hcode, if_pos (by rw [beq_iff_eq]; exact hc)]
      constructor
      · intro he
        exact absurd he (append_ne_empty_left _ _ (by decide))
      · intro hnc; exact absurd hc hnc
    · rw [hcode, if_neg (by rw [beq_iff_eq]; exact hc)]
      simp [hc]
  · rw [strIn_infix_iff]
    exact infix_pyJoin (List.mem_filter.mpr ⟨by simp, rfl⟩) "\n\n" 

end AIAssist
